import Mathlib

/-!
Verification of the motion-vector differential entropy encoder and its
rate-cost estimator (`av1/encoder/encodemv.c`).

The development shallowly embeds the C code: pure functions become Lean
functions on `Nat`/`Int`, the symbol-writing encoder becomes a function
returning the list of decisions (symbol value together with the
distribution it is coded against), and the cost-table builder becomes a
function from signed magnitudes to integer bit costs.  The external
probability-to-bit-cost conversion (`av1_cost_tokens_from_cdf`) is
abstracted: a probability snapshot is represented directly by the
per-distribution cost tables it induces.
-/

/-- Modelled from the spec: number of integer bits dedicated to class 0
("class c covers a range needing (c + constant − 1) integer bits" with the
constant `CLASS0_BITS`); value from the repository's common motion-vector
header. -/
def CLASS0_BITS : Nat := 1

/-- Modelled from the spec: size of the class-0 offset alphabet
(`1 << CLASS0_BITS`). -/
def CLASS0_SIZE : Nat := 1 <<< CLASS0_BITS

/-- Modelled from the spec: number of magnitude classes ("a small fixed
set (e.g. 11)"). -/
def MV_CLASSES : Nat := 11

/-- The smallest magnitude class. -/
def MV_CLASS_0 : Nat := 0

/-- The largest magnitude class (saturation class). -/
def MV_CLASS_10 : Nat := 10

/-- Modelled from the spec: number of per-position integer-bit
distributions (`MV_CLASSES + CLASS0_BITS - 2`). -/
def MV_OFFSET_BITS : Nat := MV_CLASSES + CLASS0_BITS - 2

/-- Modelled from the spec: size of the wide fractional-bit alphabet. -/
def MV_FP_SIZE : Nat := 4

/-- Modelled from the spec: largest representable unsigned component
magnitude, `(1 << (MV_CLASSES + CLASS0_BITS + 2)) - 1`. -/
def MV_MAX : Nat := (1 <<< (MV_CLASSES + CLASS0_BITS + 2)) - 1

/-- Modelled from the spec: the precision enumeration is ordered from
"no sub-pixel" up to one-eighth pixel; precisions are embedded as `Nat`
with the ordering of the C enumeration. -/
def MV_SUBPEL_NONE : Nat := 0

/-- Half-pixel precision level. -/
def MV_SUBPEL_HALF_PRECISION : Nat := 1

/-- Quarter-pixel precision level. -/
def MV_SUBPEL_QTR_PRECISION : Nat := 2

/-- One-eighth-pixel precision level. -/
def MV_SUBPEL_EIGHTH_PRECISION : Nat := 3

/-- `mv_class_base` from encodemv.c: `c ? CLASS0_SIZE << (c + 2) : 0`. -/
def mv_class_base (c : Nat) : Nat :=
  if c = 0 then 0 else CLASS0_SIZE <<< (c + 2)

/-- `log_in_base_2` from encodemv.c: floor of log base 2 for `n ≠ 0`,
and `0` for `n = 0` (`get_msb` is the external floor-log primitive). -/
def log_in_base_2 (n : Nat) : Nat :=
  if n = 0 then 0 else Nat.log2 n

/-- `get_mv_class` from encodemv.c.  The C argument `z` is an `int` that
every caller guarantees non-negative (`z = magnitude - 1`, magnitude ≥ 1),
so it is embedded as `Nat`; the returned pair is (class, offset). -/
def get_mv_class (z : Nat) : Nat × Nat :=
  let c : Nat :=
    if CLASS0_SIZE * 4096 ≤ z then MV_CLASS_10 else log_in_base_2 (z >>> 3)
  (c, z - mv_class_base c)

-- Basic facts about the classifier -------------------------------------------

theorem mv_class_base_zero : mv_class_base 0 = 0 := rfl

theorem mv_class_base_pos (c : Nat) (hc : 1 ≤ c) :
    mv_class_base c = 8 * 2 ^ c := by
  unfold mv_class_base CLASS0_SIZE CLASS0_BITS
  rw [if_neg (by omega)]
  simp [Nat.shiftLeft_eq, Nat.pow_add]
  ring

theorem mv_class_base_mono {a b : Nat} (h : a ≤ b) :
    mv_class_base a ≤ mv_class_base b := by
  rcases Nat.eq_zero_or_pos a with ha | ha
  · subst ha; simp [mv_class_base_zero]
  · rw [mv_class_base_pos a ha, mv_class_base_pos b (le_trans ha h)]
    exact Nat.mul_le_mul_left 8 (Nat.pow_le_pow_right (by omega) h)

/-- The classifier never produces an offset that would be negative in the
C code: the class base is always at most `z`. -/
theorem mv_class_base_le (z : Nat) :
    mv_class_base (get_mv_class z).1 ≤ z := by
  unfold get_mv_class
  by_cases hsat : CLASS0_SIZE * 4096 ≤ z
  · rw [if_pos hsat]
    calc mv_class_base MV_CLASS_10 = 8192 := rfl
    _ ≤ z := by
      have : CLASS0_SIZE * 4096 = 8192 := rfl
      omega
  · rw [if_neg hsat]
    by_cases h8 : z >>> 3 = 0
    · simp [log_in_base_2, h8, mv_class_base_zero]
    · have hlog : 2 ^ Nat.log2 (z >>> 3) ≤ z >>> 3 :=
        (Nat.le_log2 h8).mp (Nat.le_refl _)
      have hdiv : z >>> 3 = z / 8 := by
        rw [Nat.shiftRight_eq_div_pow]
      rcases Nat.eq_zero_or_pos (Nat.log2 (z >>> 3)) with hl | hl
      · simp [log_in_base_2, h8, hl, mv_class_base_zero]
      · rw [log_in_base_2, if_neg h8, mv_class_base_pos _ hl]
        have : 8 * 2 ^ Nat.log2 (z >>> 3) ≤ 8 * (z / 8) :=
          Nat.mul_le_mul_left 8 (by rw [← hdiv]; exact hlog)
        have h2 : 8 * (z / 8) ≤ z := Nat.mul_div_le z 8
        omega

theorem log_in_base_2_eq (n : Nat) : log_in_base_2 n = Nat.log2 n := by
  unfold log_in_base_2
  split
  · rename_i h
    subst h
    rw [Nat.log2_eq_log_two, Nat.log_zero_right]
  · rfl

theorem get_mv_class_fst (z : Nat) :
    (get_mv_class z).1 =
      if CLASS0_SIZE * 4096 ≤ z then MV_CLASS_10 else Nat.log2 (z >>> 3) := by
  unfold get_mv_class
  split <;> simp [log_in_base_2_eq]

theorem get_mv_class_snd (z : Nat) :
    (get_mv_class z).2 = z - mv_class_base (get_mv_class z).1 := rfl

/-- Below the saturation threshold, `z` lies strictly below the base of the
next class. -/
theorem mv_class_lt_base_succ (z : Nat) (h : z < CLASS0_SIZE * 4096) :
    z < mv_class_base ((get_mv_class z).1 + 1) := by
  have h8192 : CLASS0_SIZE * 4096 = 8192 := rfl
  unfold get_mv_class
  rw [if_neg (by omega)]
  have hz3 : z >>> 3 = z / 8 := Nat.shiftRight_eq_div_pow z 3
  by_cases h16 : z < 16
  · have hlog : log_in_base_2 (z >>> 3) = 0 := by
      have hd : z / 8 = 0 ∨ z / 8 = 1 := by omega
      rcases hd with hd | hd
      · simp [log_in_base_2, hz3, hd]
      · simp [log_in_base_2, hz3, hd, Nat.log2_eq_log_two, Nat.log_one_right]
    simp only [hlog]
    rw [mv_class_base_pos 1 (Nat.le_refl 1)]
    omega
  · have h0 : z >>> 3 ≠ 0 := by rw [hz3]; omega
    simp only [log_in_base_2, if_neg h0]
    have hfloor : z >>> 3 < 2 ^ (Nat.log2 (z >>> 3) + 1) :=
      (Nat.log2_lt h0).mp (Nat.lt_succ_self _)
    rw [mv_class_base_pos _ (by omega)]
    have hp : z / 8 < 2 ^ (Nat.log2 (z >>> 3) + 1) := hz3 ▸ hfloor
    have h2 : 8 * (z / 8) + 8 ≤ 8 * 2 ^ (Nat.log2 (z >>> 3) + 1) := by
      have h3 : z / 8 + 1 ≤ 2 ^ (Nat.log2 (z >>> 3) + 1) := hp
      calc 8 * (z / 8) + 8 = 8 * (z / 8 + 1) := by ring
      _ ≤ 8 * 2 ^ (Nat.log2 (z >>> 3) + 1) := Nat.mul_le_mul_left 8 h3
    omega

/-- The class is uniquely determined by the interval property: the class
bases are monotone, so the half-open intervals are disjoint. -/
theorem mv_class_unique {z c1 c2 : Nat}
    (h1 : mv_class_base c1 ≤ z) (h1' : z < mv_class_base (c1 + 1))
    (h2 : mv_class_base c2 ≤ z) (h2' : z < mv_class_base (c2 + 1)) :
    c1 = c2 := by
  rcases Nat.lt_trichotomy c1 c2 with h | h | h
  · have := le_trans (mv_class_base_mono (show c1 + 1 ≤ c2 by omega)) h2
    omega
  · exact h
  · have := le_trans (mv_class_base_mono (show c2 + 1 ≤ c1 by omega)) h1
    omega

/-- At or above the saturation threshold the classifier returns the
maximum class. -/
theorem get_mv_class_saturated (z : Nat) (h : CLASS0_SIZE * 4096 ≤ z) :
    (get_mv_class z).1 = MV_CLASS_10 := by
  unfold get_mv_class
  rw [if_pos h]

/-- Magnitude reconstruction: `classBase(class) + offset + 1` recovers the
magnitude `z + 1`. -/
theorem get_mv_class_reconstruct (z : Nat) :
    mv_class_base (get_mv_class z).1 + (get_mv_class z).2 + 1 = z + 1 := by
  have h := mv_class_base_le z
  rw [get_mv_class_snd]
  omega

-- Component encoder and cost table -------------------------------------------

/-- One adaptive-coder decision of the component encoder: the symbol value
written, tagged by the distribution it is coded against (mirroring the
`aom_write_symbol` calls of `encode_mv_component`).  The `bits` tag carries
the bit position `i`, selecting `mvcomp->bits_cdf[i]`; the flexible-layout
fractional tags carry the indices selecting the nested distributions. -/
inductive MvDecision where
  | sign (b : Nat)
  | cls (c : Nat)
  | class0 (d : Nat)
  | bits (i b : Nat)
  | class0_fp (d j b : Nat)
  | fp (j b : Nat)
  | class0_fp_wide (d f : Nat)
  | fp_wide (f : Nat)
  | class0_hp (b : Nat)
  | hp (b : Nat)
deriving DecidableEq

/-- A probability snapshot of one component model, represented by the
per-symbol bit costs that `av1_cost_tokens_from_cdf` (an external
primitive, a pure read of the distributions) derives from each of its
distributions. -/
structure NmvComponentCosts where
  sign_cost : Nat → Int
  class_cost : Nat → Int
  class0_cost : Nat → Int
  bits_cost : Nat → Nat → Int
  class0_fp_cost : Nat → Nat → Nat → Int
  fp_cost : Nat → Nat → Int
  class0_fp_wide_cost : Nat → Nat → Int
  fp_wide_cost : Nat → Int
  class0_hp_cost : Nat → Int
  hp_cost : Nat → Int

/-- The bit cost of one decision under a snapshot: each decision is charged
the snapshot cost of its symbol under the distribution it is coded
against. -/
def decisionCost (s : NmvComponentCosts) : MvDecision → Int
  | .sign b => s.sign_cost b
  | .cls c => s.class_cost c
  | .class0 d => s.class0_cost d
  | .bits i b => s.bits_cost i b
  | .class0_fp d j b => s.class0_fp_cost d j b
  | .fp j b => s.fp_cost j b
  | .class0_fp_wide d f => s.class0_fp_wide_cost d f
  | .fp_wide f => s.fp_wide_cost f
  | .class0_hp b => s.class0_hp_cost b
  | .hp b => s.hp_cost b

/-- `encode_mv_component` from encodemv.c, embedded as the list of
decisions written, in emission order.  `flex` selects the
`CONFIG_FLEX_MVRES` build of the fractional-bit binarization (two binary
decisions) versus the single wide symbol.  The caller guarantees
`comp ≠ 0`. -/
def encode_mv_component (flex : Bool) (comp : Int) (precision : Nat) :
    List MvDecision :=
  let sign : Nat := if comp < 0 then 1 else 0
  let mag : Nat := if comp < 0 then (-comp).toNat else comp.toNat
  let mv_class := (get_mv_class (mag - 1)).1
  let offset := (get_mv_class (mag - 1)).2
  let d := offset >>> 3
  let fr := (offset >>> 1) % 4
  let hp := offset % 2
  [MvDecision.sign sign, MvDecision.cls mv_class]
  ++ (if mv_class = MV_CLASS_0 then
        [MvDecision.class0 d]
      else
        (List.range (mv_class + CLASS0_BITS - 1)).map
          (fun i => MvDecision.bits i ((d >>> i) % 2)))
  ++ (if MV_SUBPEL_NONE < precision then
        (if flex then
          [if mv_class = MV_CLASS_0 then
             MvDecision.class0_fp d 0 (fr >>> 1)
           else MvDecision.fp 0 (fr >>> 1)]
          ++ (if MV_SUBPEL_HALF_PRECISION < precision then
                [if mv_class = MV_CLASS_0 then
                   MvDecision.class0_fp d (1 + (fr >>> 1)) (fr % 2)
                 else MvDecision.fp (1 + (fr >>> 1)) (fr % 2)]
              else [])
        else
          [if mv_class = MV_CLASS_0 then
             MvDecision.class0_fp_wide d fr
           else MvDecision.fp_wide fr])
      else [])
  ++ (if MV_SUBPEL_QTR_PRECISION < precision then
        [if mv_class = MV_CLASS_0 then
           MvDecision.class0_hp hp
         else MvDecision.hp hp]
      else [])

/-- The per-magnitude cost accumulated by the loop body of
`build_nmv_component_cost_table` for an unsigned magnitude `v ≥ 1`,
before the sign cost is added (the value of `cost` at line
`mvcost[v] = cost + sign_cost[0]`). -/
def nmv_component_cost (flex : Bool) (s : NmvComponentCosts)
    (precision : Nat) (v : Nat) : Int :=
  let z := v - 1
  let c := (get_mv_class z).1
  let o := (get_mv_class z).2
  let d := o >>> 3
  let f := (o >>> 1) % 4
  let e := o % 2
  s.class_cost c
  + (if c = MV_CLASS_0 then
       s.class0_cost d
     else
       ((List.range (c + CLASS0_BITS - 1)).map
          (fun i => s.bits_cost i ((d >>> i) % 2))).sum)
  + (if MV_SUBPEL_NONE < precision then
       (if flex then
          (if c = MV_CLASS_0 then
             s.class0_fp_cost d 0 (f >>> 1)
             + (if MV_SUBPEL_HALF_PRECISION < precision then
                  s.class0_fp_cost d (1 + (f >>> 1)) (f % 2)
                else 0)
           else
             s.fp_cost 0 (f >>> 1)
             + (if MV_SUBPEL_HALF_PRECISION < precision then
                  s.fp_cost (1 + (f >>> 1)) (f % 2)
                else 0))
        else
          (if c = MV_CLASS_0 then s.class0_fp_wide_cost d f
           else s.fp_wide_cost f))
       + (if MV_SUBPEL_QTR_PRECISION < precision then
            (if c = MV_CLASS_0 then s.class0_hp_cost e else s.hp_cost e)
          else 0)
     else 0)

/-- `build_nmv_component_cost_table` from encodemv.c, as a function from
the signed table index in `[-MV_MAX, MV_MAX]` to the table entry:
`mvcost[0] = 0`, `mvcost[v] = cost + sign_cost[0]` and
`mvcost[-v] = cost + sign_cost[1]` for `v` in `[1, MV_MAX]`. -/
def build_nmv_component_cost_table (flex : Bool) (s : NmvComponentCosts)
    (precision : Nat) (x : Int) : Int :=
  if x = 0 then 0
  else
    nmv_component_cost flex s precision x.natAbs
    + s.sign_cost (if x < 0 then 1 else 0)

/-- Central refinement lemma: the total snapshot cost of the decisions the
component encoder emits for `comp` equals the sign cost of `comp`'s sign
plus the cost-table loop body's accumulated cost for the magnitude
`|comp|`. -/
theorem encode_cost_sum (flex : Bool) (s : NmvComponentCosts)
    (precision : Nat) (comp : Int) :
    ((encode_mv_component flex comp precision).map (decisionCost s)).sum
      = s.sign_cost (if comp < 0 then 1 else 0)
        + nmv_component_cost flex s precision comp.natAbs := by
  have hmag : (if comp < 0 then (-comp).toNat else comp.toNat) = comp.natAbs := by
    split <;> omega
  simp only [encode_mv_component, nmv_component_cost, hmag, MV_SUBPEL_NONE,
    MV_SUBPEL_HALF_PRECISION, MV_SUBPEL_QTR_PRECISION]
  split_ifs <;>
    first
    | omega
    | (simp [decisionCost, List.map_map, Function.comp_def]; try ring)

/-- A concrete probability snapshot used to evaluate the development on
specific inputs; each distribution's costs are distinct so that additive
terms cannot be confused. -/
def sampleCosts : NmvComponentCosts where
  sign_cost b := 10 + (b : Int)
  class_cost c := 100 + (c : Int)
  class0_cost d := 200 + (d : Int)
  bits_cost i b := 300 + 10 * (i : Int) + (b : Int)
  class0_fp_cost d j b := 400 + 100 * (d : Int) + 10 * (j : Int) + (b : Int)
  fp_cost j b := 500 + 10 * (j : Int) + (b : Int)
  class0_fp_wide_cost d f := 600 + 10 * (d : Int) + (f : Int)
  fp_wide_cost f := 700 + (f : Int)
  class0_hp_cost b := 800 + (b : Int)
  hp_cost b := 900 + (b : Int)

/-- C1: for every probability snapshot, every precision and every magnitude
`v` in `[1, MV_MAX]`, the cost-table entry for `+v` (and likewise for `-v`)
equals the sum, over exactly the decisions the component encoder would emit
for a component of that magnitude and sign at that precision (class symbol;
class-0 symbol on `offset >> 3` or the per-position integer-bit symbols;
fractional bits; high-precision bit; with identical precision gating), of
each decision's bit cost under the snapshot — the sign cost being the cost
of the emitted sign decision — and the entry for magnitude `0` is exactly
`0`. -/
theorem cost_table_refines_component_encoder (flex : Bool)
    (s : NmvComponentCosts) (precision : Nat) (v : Nat)
    (h1 : 1 ≤ v) (h2 : v ≤ MV_MAX) :
    build_nmv_component_cost_table flex s precision (v : Int)
        = ((encode_mv_component flex (v : Int) precision).map
            (decisionCost s)).sum
      ∧ build_nmv_component_cost_table flex s precision (-(v : Int))
        = ((encode_mv_component flex (-(v : Int)) precision).map
            (decisionCost s)).sum
      ∧ build_nmv_component_cost_table flex s precision 0 = 0 := by
  have h0 : ¬((v : Int) = 0) := by omega
  have hneg : ¬((v : Int) < 0) := by omega
  have h0' : ¬(-(v : Int) = 0) := by omega
  have hneg' : -(v : Int) < 0 := by omega
  have habs : ((v : Int)).natAbs = v := by omega
  have habs' : (-(v : Int)).natAbs = v := by omega
  refine ⟨?_, ?_, rfl⟩
  · rw [encode_cost_sum]
    simp only [build_nmv_component_cost_table, if_neg h0, if_neg hneg, habs]
    ring
  · rw [encode_cost_sum]
    simp only [build_nmv_component_cost_table, if_neg h0', if_pos hneg',
      habs']
    ring

/-- Witness for C1 at `v = 3`, eighth-pixel precision, the flexible
fractional-bit layout, and the sample snapshot. -/
theorem cost_table_refines_component_encoder_witness :
    (1 ≤ 3 ∧ 3 ≤ MV_MAX)
    ∧ (build_nmv_component_cost_table true sampleCosts 3 ((3 : Nat) : Int)
        = ((encode_mv_component true ((3 : Nat) : Int) 3).map
            (decisionCost sampleCosts)).sum
      ∧ build_nmv_component_cost_table true sampleCosts 3 (-((3 : Nat) : Int))
        = ((encode_mv_component true (-((3 : Nat) : Int)) 3).map
            (decisionCost sampleCosts)).sum
      ∧ build_nmv_component_cost_table true sampleCosts 3 0 = 0) :=
  ⟨⟨by decide, by decide⟩,
    cost_table_refines_component_encoder true sampleCosts 3 3
      (by decide) (by decide)⟩

/-- C2 counterexample: at the sample snapshot (whose two sign costs
differ), `cost(v) - cost(-v)` does not equal `signCost(1) - signCost(0)`
at `v = 1`; the code computes `signCost(0) - signCost(1)` (symbol `0` is
the sign of a positive component, symbol `1` of a negative one). -/
theorem cost_table_sign_difference_counterexample :
    ¬(build_nmv_component_cost_table false sampleCosts MV_SUBPEL_NONE 1
        - build_nmv_component_cost_table false sampleCosts MV_SUBPEL_NONE (-1)
      = sampleCosts.sign_cost 1 - sampleCosts.sign_cost 0) := by decide

/-- C2 (amended): for every probability snapshot and every magnitude `v`
in `[1, MV_MAX]`, the built cost table satisfies
`cost(v) - cost(-v) = signCost(0) - signCost(1)`: the entries for `+v`
and `-v` differ only by the additive sign-symbol term and share all
magnitude-dependent terms. -/
theorem cost_table_sign_difference (flex : Bool) (s : NmvComponentCosts)
    (precision : Nat) (v : Nat) (h1 : 1 ≤ v) (h2 : v ≤ MV_MAX) :
    build_nmv_component_cost_table flex s precision (v : Int)
      - build_nmv_component_cost_table flex s precision (-(v : Int))
    = s.sign_cost 0 - s.sign_cost 1 := by
  have h0 : ¬((v : Int) = 0) := by omega
  have hneg : ¬((v : Int) < 0) := by omega
  have h0' : ¬(-(v : Int) = 0) := by omega
  have hneg' : -(v : Int) < 0 := by omega
  have habs : ((v : Int)).natAbs = v := by omega
  have habs' : (-(v : Int)).natAbs = v := by omega
  simp only [build_nmv_component_cost_table, if_neg h0, if_neg hneg,
    if_neg h0', if_pos hneg', habs, habs']
  ring

/-- Witness for the amended C2 at `v = 2`, quarter-pixel precision, the
wide fractional layout, and the sample snapshot. -/
theorem cost_table_sign_difference_witness :
    (1 ≤ 2 ∧ 2 ≤ MV_MAX)
    ∧ build_nmv_component_cost_table false sampleCosts 2 ((2 : Nat) : Int)
        - build_nmv_component_cost_table false sampleCosts 2 (-((2 : Nat) : Int))
      = sampleCosts.sign_cost 0 - sampleCosts.sign_cost 1 :=
  ⟨⟨by decide, by decide⟩,
    cost_table_sign_difference false sampleCosts 2 2 (by decide) (by decide)⟩

/-- C5: for a non-zero component, the component encoder writes exactly, in
this order: the sign `comp < 0` as a binary symbol; the class as one
N-ary symbol; for class 0 one symbol over the class-0 alphabet on
`offset >> 3`, and for class `c ≥ 1` exactly `c + CLASS0_BITS - 1` binary
symbols of `offset >> 3`, LSB first, each against its own per-position
distribution; fractional bits only above "no sub-pixel" precision; and one
high-precision binary symbol only above the quarter-pixel threshold, its
distribution selected by class-0 versus other. -/
theorem encode_mv_component_order (flex : Bool) (comp : Int)
    (h : comp ≠ 0) (precision : Nat) :
    encode_mv_component flex comp precision =
      [MvDecision.sign (if comp < 0 then 1 else 0),
       MvDecision.cls (get_mv_class (comp.natAbs - 1)).1]
      ++ (if (get_mv_class (comp.natAbs - 1)).1 = MV_CLASS_0 then
            [MvDecision.class0 ((get_mv_class (comp.natAbs - 1)).2 >>> 3)]
          else
            (List.range ((get_mv_class (comp.natAbs - 1)).1 + CLASS0_BITS - 1)).map
              (fun i => MvDecision.bits i
                ((((get_mv_class (comp.natAbs - 1)).2 >>> 3) >>> i) % 2)))
      ++ (if MV_SUBPEL_NONE < precision then
            (if flex then
              [if (get_mv_class (comp.natAbs - 1)).1 = MV_CLASS_0 then
                 MvDecision.class0_fp ((get_mv_class (comp.natAbs - 1)).2 >>> 3) 0
                   ((((get_mv_class (comp.natAbs - 1)).2 >>> 1) % 4) >>> 1)
               else MvDecision.fp 0
                 ((((get_mv_class (comp.natAbs - 1)).2 >>> 1) % 4) >>> 1)]
              ++ (if MV_SUBPEL_HALF_PRECISION < precision then
                    [if (get_mv_class (comp.natAbs - 1)).1 = MV_CLASS_0 then
                       MvDecision.class0_fp ((get_mv_class (comp.natAbs - 1)).2 >>> 3)
                         (1 + ((((get_mv_class (comp.natAbs - 1)).2 >>> 1) % 4) >>> 1))
                         ((((get_mv_class (comp.natAbs - 1)).2 >>> 1) % 4) % 2)
                     else MvDecision.fp
                       (1 + ((((get_mv_class (comp.natAbs - 1)).2 >>> 1) % 4) >>> 1))
                       ((((get_mv_class (comp.natAbs - 1)).2 >>> 1) % 4) % 2)]
                  else [])
            else
              [if (get_mv_class (comp.natAbs - 1)).1 = MV_CLASS_0 then
                 MvDecision.class0_fp_wide ((get_mv_class (comp.natAbs - 1)).2 >>> 3)
                   (((get_mv_class (comp.natAbs - 1)).2 >>> 1) % 4)
               else MvDecision.fp_wide (((get_mv_class (comp.natAbs - 1)).2 >>> 1) % 4)])
          else [])
      ++ (if MV_SUBPEL_QTR_PRECISION < precision then
            [if (get_mv_class (comp.natAbs - 1)).1 = MV_CLASS_0 then
               MvDecision.class0_hp ((get_mv_class (comp.natAbs - 1)).2 % 2)
             else MvDecision.hp ((get_mv_class (comp.natAbs - 1)).2 % 2)]
          else []) := by
  have hmag : (if comp < 0 then (-comp).toNat else comp.toNat) = comp.natAbs := by
    split <;> omega
  simp only [encode_mv_component, hmag]

/-- Witness for C5 at `comp = 5`, eighth-pixel precision, the flexible
fractional layout: magnitude 5 gives `z = 4`, class 0, offset 4. -/
theorem encode_mv_component_order_witness :
    ((5 : Int) ≠ 0)
    ∧ encode_mv_component true (5 : Int) 3 =
      [MvDecision.sign (if (5 : Int) < 0 then 1 else 0),
       MvDecision.cls (get_mv_class ((5 : Int).natAbs - 1)).1]
      ++ (if (get_mv_class ((5 : Int).natAbs - 1)).1 = MV_CLASS_0 then
            [MvDecision.class0 ((get_mv_class ((5 : Int).natAbs - 1)).2 >>> 3)]
          else
            (List.range ((get_mv_class ((5 : Int).natAbs - 1)).1 + CLASS0_BITS - 1)).map
              (fun i => MvDecision.bits i
                ((((get_mv_class ((5 : Int).natAbs - 1)).2 >>> 3) >>> i) % 2)))
      ++ (if MV_SUBPEL_NONE < 3 then
            (if true then
              [if (get_mv_class ((5 : Int).natAbs - 1)).1 = MV_CLASS_0 then
                 MvDecision.class0_fp ((get_mv_class ((5 : Int).natAbs - 1)).2 >>> 3) 0
                   ((((get_mv_class ((5 : Int).natAbs - 1)).2 >>> 1) % 4) >>> 1)
               else MvDecision.fp 0
                 ((((get_mv_class ((5 : Int).natAbs - 1)).2 >>> 1) % 4) >>> 1)]
              ++ (if MV_SUBPEL_HALF_PRECISION < 3 then
                    [if (get_mv_class ((5 : Int).natAbs - 1)).1 = MV_CLASS_0 then
                       MvDecision.class0_fp ((get_mv_class ((5 : Int).natAbs - 1)).2 >>> 3)
                         (1 + ((((get_mv_class ((5 : Int).natAbs - 1)).2 >>> 1) % 4) >>> 1))
                         ((((get_mv_class ((5 : Int).natAbs - 1)).2 >>> 1) % 4) % 2)
                     else MvDecision.fp
                       (1 + ((((get_mv_class ((5 : Int).natAbs - 1)).2 >>> 1) % 4) >>> 1))
                       ((((get_mv_class ((5 : Int).natAbs - 1)).2 >>> 1) % 4) % 2)]
                  else [])
            else
              [if (get_mv_class ((5 : Int).natAbs - 1)).1 = MV_CLASS_0 then
                 MvDecision.class0_fp_wide ((get_mv_class ((5 : Int).natAbs - 1)).2 >>> 3)
                   (((get_mv_class ((5 : Int).natAbs - 1)).2 >>> 1) % 4)
               else MvDecision.fp_wide (((get_mv_class ((5 : Int).natAbs - 1)).2 >>> 1) % 4)])
          else [])
      ++ (if MV_SUBPEL_QTR_PRECISION < 3 then
            [if (get_mv_class ((5 : Int).natAbs - 1)).1 = MV_CLASS_0 then
               MvDecision.class0_hp ((get_mv_class ((5 : Int).natAbs - 1)).2 % 2)
             else MvDecision.hp ((get_mv_class ((5 : Int).natAbs - 1)).2 % 2)]
          else []) :=
  ⟨by decide, encode_mv_component_order true (5 : Int) (by decide) 3⟩

/-- C6 counterexample: at the sample snapshot and "no sub-pixel"
precision, the entry for magnitude 1 is not `signCost + class0Cost[0]`
alone — the code also adds the class-symbol cost `classCost[0]`. -/
theorem magnitude_one_cost_counterexample :
    ¬(build_nmv_component_cost_table false sampleCosts MV_SUBPEL_NONE 1
        = sampleCosts.sign_cost 0 + sampleCosts.class0_cost 0) := by decide

/-- C6 (amended): for every probability snapshot at "no sub-pixel"
precision, magnitude 1 (`z = 0`) maps to class 0, offset 0, class-0 symbol
0, and its cost-table entry is
`signCost(0) + classCost[0] + class0Cost[0]`, with no other additive
term. -/
theorem magnitude_one_cost (flex : Bool) (s : NmvComponentCosts) :
    get_mv_class 0 = (0, 0)
    ∧ ((get_mv_class 0).2 >>> 3) = 0
    ∧ build_nmv_component_cost_table flex s MV_SUBPEL_NONE 1
        = s.sign_cost 0 + s.class_cost 0 + s.class0_cost 0 := by
  refine ⟨by decide, by decide, ?_⟩
  have hc : get_mv_class 0 = (0, 0) := by decide
  simp [build_nmv_component_cost_table, nmv_component_cost, hc,
    MV_CLASS_0, MV_SUBPEL_NONE]
  ring

/-- C3: for every magnitude `v` in `[1, MV_MAX]`, the classifier applied
to `z = v - 1` yields a unique (class, offset) with
`classBase(class) ≤ z < classBase(class + 1)` whenever `z` is below
saturation (and the maximum class at or above it), and reconstructing via
`classBase(class) + offset + 1` together with the sign recovers exactly
the signed component; the classifier takes no precision input, so this
holds at every precision. -/
theorem mv_class_roundtrip (v : Nat) (h1 : 1 ≤ v) (h2 : v ≤ MV_MAX) :
    (v - 1 < CLASS0_SIZE * 4096 →
       mv_class_base (get_mv_class (v - 1)).1 ≤ v - 1
       ∧ v - 1 < mv_class_base ((get_mv_class (v - 1)).1 + 1)
       ∧ ∀ c', mv_class_base c' ≤ v - 1 →
           v - 1 < mv_class_base (c' + 1) → c' = (get_mv_class (v - 1)).1)
    ∧ (CLASS0_SIZE * 4096 ≤ v - 1 → (get_mv_class (v - 1)).1 = MV_CLASS_10)
    ∧ mv_class_base (get_mv_class (v - 1)).1 + (get_mv_class (v - 1)).2 + 1 = v
    ∧ (∀ comp : Int, comp.natAbs = v →
         (if comp < 0 then
            -((mv_class_base (get_mv_class (v - 1)).1
               + (get_mv_class (v - 1)).2 + 1 : Nat) : Int)
          else ((mv_class_base (get_mv_class (v - 1)).1
               + (get_mv_class (v - 1)).2 + 1 : Nat) : Int)) = comp) := by
  have hrec : mv_class_base (get_mv_class (v - 1)).1
      + (get_mv_class (v - 1)).2 + 1 = v := by
    have := get_mv_class_reconstruct (v - 1)
    omega
  refine ⟨fun hz => ⟨mv_class_base_le _, mv_class_lt_base_succ _ hz,
      fun c' hc1 hc2 =>
        mv_class_unique hc1 hc2 (mv_class_base_le _)
          (mv_class_lt_base_succ _ hz)⟩,
    get_mv_class_saturated _, hrec, ?_⟩
  intro comp hcomp
  rw [hrec]
  split <;> omega

/-- Witness for C3 at `v = 5` (class 0, offset 4) and the signed component
`-5`. -/
theorem mv_class_roundtrip_witness :
    (1 ≤ 5 ∧ 5 ≤ MV_MAX ∧ ((-5 : Int)).natAbs = 5)
    ∧ mv_class_base (get_mv_class (5 - 1)).1 + (get_mv_class (5 - 1)).2 + 1 = 5
    ∧ (if (-5 : Int) < 0 then
         -((mv_class_base (get_mv_class (5 - 1)).1
            + (get_mv_class (5 - 1)).2 + 1 : Nat) : Int)
       else ((mv_class_base (get_mv_class (5 - 1)).1
            + (get_mv_class (5 - 1)).2 + 1 : Nat) : Int)) = (-5 : Int) :=
  ⟨⟨by decide, by decide, by decide⟩,
    (mv_class_roundtrip 5 (by decide) (by decide)).2.2.1,
    (mv_class_roundtrip 5 (by decide) (by decide)).2.2.2 (-5) (by decide)⟩

/-- C4: for every in-range non-negative `z`, the classifier computes class
`MV_CLASS_10` when `z ≥ CLASS0_SIZE * 4096` and `floor(log2(z / 8))`
otherwise (the logarithm of zero read as zero), with
`offset = z - classBase(class)`, `classBase(0) = 0`,
`classBase(c) = CLASS0_SIZE << (c + 2)` for `c ≥ 1`, and `z = 0` yielding
class 0 with offset 0. -/
theorem get_mv_class_formula (z : Nat) (h : z ≤ MV_MAX - 1) :
    (CLASS0_SIZE * 4096 ≤ z → (get_mv_class z).1 = MV_CLASS_10)
    ∧ (z < CLASS0_SIZE * 4096 → (get_mv_class z).1 = Nat.log2 (z / 8))
    ∧ (get_mv_class z).2 = z - mv_class_base (get_mv_class z).1
    ∧ mv_class_base 0 = 0
    ∧ (∀ c, 1 ≤ c → mv_class_base c = CLASS0_SIZE <<< (c + 2))
    ∧ (z = 0 → get_mv_class z = (0, 0)) := by
  refine ⟨get_mv_class_saturated z, ?_, get_mv_class_snd z, rfl, ?_, ?_⟩
  · intro hz
    rw [get_mv_class_fst, if_neg (by omega)]
    congr 1
    rw [Nat.shiftRight_eq_div_pow]
  · intro c hc
    rw [mv_class_base, if_neg (by omega)]
  · intro hz
    subst hz
    decide

/-- Witness for C4 at `z = 20` (class `log2(20 / 8) = 1`). -/
theorem get_mv_class_formula_witness :
    ((20 : Nat) ≤ MV_MAX - 1 ∧ (20 : Nat) < CLASS0_SIZE * 4096)
    ∧ (get_mv_class 20).1 = Nat.log2 (20 / 8) :=
  ⟨⟨by decide, by decide⟩,
    (get_mv_class_formula 20 (by decide)).2.1 (by decide)⟩

/-- C10: for every `z` with `0 ≤ z ≤ 7` (magnitudes 1 through 8), the
classifier returns class 0 with offset `z`: `z >> 3 = 0` there, and the
code resolves the logarithm of zero as zero, so the whole range below 8
falls into class 0. -/
theorem get_mv_class_small (z : Nat) (h : z ≤ 7) :
    get_mv_class z = (0, z) := by
  have h3 : z >>> 3 = 0 := by
    rw [Nat.shiftRight_eq_div_pow]
    norm_num
    omega
  have hsat : ¬(CLASS0_SIZE * 4096 ≤ z) := by
    have he : CLASS0_SIZE * 4096 = 8192 := rfl
    omega
  unfold get_mv_class
  rw [if_neg hsat]
  simp [log_in_base_2, h3, mv_class_base_zero]

/-- Witness for C10 at `z = 5`. -/
theorem get_mv_class_small_witness :
    (5 : Nat) ≤ 7 ∧ get_mv_class 5 = (0, 5) :=
  ⟨by decide, get_mv_class_small 5 (by decide)⟩

-- Joint encoder ---------------------------------------------------------------

/-- A motion vector: signed (row, col) pair in eighth-pixel units. -/
structure MV where
  row : Int
  col : Int
deriving DecidableEq

/-- Modelled from the spec: the joint type "neither" (both scalars of the
differential are zero). -/
def MV_JOINT_ZERO : Nat := 0

/-- Modelled from the spec: the joint type "col-only" (only the horizontal
scalar is non-zero). -/
def MV_JOINT_HNZVZ : Nat := 1

/-- Modelled from the spec: the joint type "row-only" (only the vertical
scalar is non-zero). -/
def MV_JOINT_HZVNZ : Nat := 2

/-- Modelled from the spec: the joint type "both" (both scalars are
non-zero). -/
def MV_JOINT_HNZVNZ : Nat := 3

/-- Modelled from the spec: `av1_get_mv_joint` (defined in the repository's
common motion-vector header, outside this file's source) derives the joint
type from which scalar(s) of the differential are non-zero. -/
def av1_get_mv_joint (mv : MV) : Nat :=
  if mv.row = 0 then
    (if mv.col = 0 then MV_JOINT_ZERO else MV_JOINT_HNZVZ)
  else
    (if mv.col = 0 then MV_JOINT_HZVNZ else MV_JOINT_HNZVNZ)

/-- Modelled from the spec: `mv_joint_vertical` — whether the joint type
has a non-zero row (vertical) scalar. -/
def mv_joint_vertical (j : Nat) : Bool :=
  j = MV_JOINT_HZVNZ || j = MV_JOINT_HNZVNZ

/-- Modelled from the spec: `mv_joint_horizontal` — whether the joint type
has a non-zero col (horizontal) scalar. -/
def mv_joint_horizontal (j : Nat) : Bool :=
  j = MV_JOINT_HNZVZ || j = MV_JOINT_HNZVNZ

/-- The observable coding trace of a joint-encoder entry point: the joint
symbol written against the joint distribution, followed by the component
encoder invocations in order; each invocation records the component model
index (`0` = row model `comps[0]`, `1` = col model `comps[1]`), the signed
component value, and the precision passed. -/
structure EncodeMvTrace where
  joint : Nat
  invocations : List (Nat × Int × Nat)
deriving DecidableEq

/-- `av1_encode_mv` from encodemv.c, as its coding trace: code the joint
symbol for `diff = mv - ref`, then invoke the component encoder on the row
for vertical joints and on the col for horizontal joints, at the requested
precision.  (The `auto_mv_step_size` bookkeeping mutates only the encoder's
search statistics, not the coded trace.) -/
def av1_encode_mv (mv ref : MV) (precision : Nat) : EncodeMvTrace :=
  let diff : MV := ⟨mv.row - ref.row, mv.col - ref.col⟩
  let j := av1_get_mv_joint diff
  { joint := j
    invocations :=
      (if mv_joint_vertical j then [(0, diff.row, precision)] else [])
      ++ (if mv_joint_horizontal j then [(1, diff.col, precision)] else []) }

/-- `av1_encode_dv` from encodemv.c, as its coding trace: the caller
guarantees that vector and predictor have zero low three bits (the
asserts), and every component invocation is at `MV_SUBPEL_NONE`. -/
def av1_encode_dv (mv ref : MV) : EncodeMvTrace :=
  let diff : MV := ⟨mv.row - ref.row, mv.col - ref.col⟩
  let j := av1_get_mv_joint diff
  { joint := j
    invocations :=
      (if mv_joint_vertical j then [(0, diff.row, MV_SUBPEL_NONE)] else [])
      ++ (if mv_joint_horizontal j then [(1, diff.col, MV_SUBPEL_NONE)] else []) }

/-- All component-encoder decisions of a trace, in order. -/
def trace_component_decisions (flex : Bool) (t : EncodeMvTrace) :
    List MvDecision :=
  t.invocations.flatMap (fun inv => encode_mv_component flex inv.2.1 inv.2.2)

/-- Whether a decision is a fractional-bit or high-precision symbol. -/
def is_subpel_decision : MvDecision → Bool
  | .class0_fp _ _ _ => true
  | .fp _ _ => true
  | .class0_fp_wide _ _ => true
  | .fp_wide _ => true
  | .class0_hp _ => true
  | .hp _ => true
  | _ => false

/-- At "no sub-pixel" precision the component encoder emits no
fractional-bit and no high-precision decision: those branches are gated
by strictly larger precisions. -/
theorem encode_mv_component_none_no_subpel (flex : Bool) (comp : Int) :
    ∀ d ∈ encode_mv_component flex comp MV_SUBPEL_NONE,
      is_subpel_decision d = false := by
  intro d hd
  simp only [encode_mv_component, MV_SUBPEL_NONE, MV_SUBPEL_QTR_PRECISION] at hd
  norm_num at hd
  rcases hd with rfl | rfl | hd
  · rfl
  · rfl
  · split at hd <;> split at hd <;>
      first
      | (simp only [List.mem_singleton] at hd
         subst hd
         rfl)
      | (simp only [List.mem_map] at hd
         obtain ⟨i, -, rfl⟩ := hd
         rfl)

/-- C7: in the general joint encode with `diff = actual - predictor`, a
`(0, 0)` diff codes only the "neither" joint symbol and invokes the
component encoder zero times; a diff with only the row non-zero codes the
"row-only" joint symbol and invokes the component encoder exactly once, on
the row component, never on the zero column. -/
theorem av1_encode_mv_joint_dispatch (mv ref : MV) (precision : Nat) :
    ((mv.row - ref.row = 0 ∧ mv.col - ref.col = 0) →
       av1_encode_mv mv ref precision
         = { joint := MV_JOINT_ZERO, invocations := [] })
    ∧ ((mv.row - ref.row ≠ 0 ∧ mv.col - ref.col = 0) →
       av1_encode_mv mv ref precision
         = { joint := MV_JOINT_HZVNZ,
             invocations := [(0, mv.row - ref.row, precision)] }) := by
  constructor
  · rintro ⟨h1, h2⟩
    simp [av1_encode_mv, av1_get_mv_joint, mv_joint_vertical,
      mv_joint_horizontal, h1, h2, MV_JOINT_ZERO, MV_JOINT_HNZVZ,
      MV_JOINT_HZVNZ, MV_JOINT_HNZVNZ]
  · rintro ⟨h1, h2⟩
    simp [av1_encode_mv, av1_get_mv_joint, mv_joint_vertical,
      mv_joint_horizontal, h1, h2, MV_JOINT_ZERO, MV_JOINT_HNZVZ,
      MV_JOINT_HZVNZ, MV_JOINT_HNZVNZ]

/-- Witness for C7: a zero diff at `(3, 4) - (3, 4)` and a row-only diff
at `(11, 4) - (3, 4)`, both at eighth-pixel precision. -/
theorem av1_encode_mv_joint_dispatch_witness :
    av1_encode_mv ⟨3, 4⟩ ⟨3, 4⟩ 3
      = { joint := MV_JOINT_ZERO, invocations := [] }
    ∧ av1_encode_mv ⟨11, 4⟩ ⟨3, 4⟩ 3
      = { joint := MV_JOINT_HZVNZ,
          invocations := [(0, (11 : Int) - 3, 3)] } :=
  ⟨(av1_encode_mv_joint_dispatch ⟨3, 4⟩ ⟨3, 4⟩ 3).1 ⟨by decide, by decide⟩,
   (av1_encode_mv_joint_dispatch ⟨11, 4⟩ ⟨3, 4⟩ 3).2 ⟨by decide, by decide⟩⟩

/-- C8: under the full-pixel-only entry's precondition that vector and
predictor have zero in their low three bits, the restricted encode
produces the same joint-then-component trace as the general entry forced
to "no sub-pixel" precision, and no fractional-bit or high-precision
decision occurs anywhere in its component decisions. -/
theorem av1_encode_dv_full_pel (mv ref : MV)
    (hmr : mv.row % 8 = 0) (hmc : mv.col % 8 = 0)
    (hrr : ref.row % 8 = 0) (hrc : ref.col % 8 = 0) (flex : Bool) :
    av1_encode_dv mv ref = av1_encode_mv mv ref MV_SUBPEL_NONE
    ∧ ∀ d ∈ trace_component_decisions flex (av1_encode_dv mv ref),
        is_subpel_decision d = false := by
  refine ⟨rfl, ?_⟩
  intro d hd
  simp only [trace_component_decisions, List.mem_flatMap] at hd
  obtain ⟨inv, hinv, hd⟩ := hd
  have hprec : inv.2.2 = MV_SUBPEL_NONE := by
    simp only [av1_encode_dv] at hinv
    rcases List.mem_append.mp hinv with h | h <;>
      [skip; skip] <;>
      (split at h <;> simp_all)
  rw [hprec] at hd
  exact encode_mv_component_none_no_subpel flex inv.2.1 d hd

/-- Witness for C8 at `mv = (16, -8)`, `ref = (8, 0)` (all low three bits
zero). -/
theorem av1_encode_dv_full_pel_witness :
    ((16 : Int) % 8 = 0 ∧ (-8 : Int) % 8 = 0 ∧ (8 : Int) % 8 = 0
      ∧ (0 : Int) % 8 = 0)
    ∧ av1_encode_dv ⟨16, -8⟩ ⟨8, 0⟩
        = av1_encode_mv ⟨16, -8⟩ ⟨8, 0⟩ MV_SUBPEL_NONE :=
  ⟨⟨by decide, by decide, by decide, by decide⟩,
    (av1_encode_dv_full_pel ⟨16, -8⟩ ⟨8, 0⟩ (by decide) (by decide)
      (by decide) (by decide) true).1⟩

-- Reference vector resolver ---------------------------------------------------

/-- A candidate-stack entry: up to two predictor vectors, "this" for the
first (or only) reference and "comp" for the compound partner. -/
structure CANDIDATE_MV where
  this_mv : MV
  comp_mv : MV
deriving DecidableEq

/-- Modelled from the spec: the candidate-stack boundary — per
reference-frame key, an ordered stack of entries with a populated count,
plus a per-reference-frame global-motion-vector table.  The stack is a
total function on indices because the C array is fixed-size; only entries
below `ref_mv_count` are populated. -/
structure MB_MODE_INFO_EXT where
  ref_mv_stack : Int → Nat → CANDIDATE_MV
  ref_mv_count : Int → Nat
  global_mvs : Int → MV

/-- Modelled from the spec: the intra-frame reference code; a second
reference strictly greater than it marks a compound pair. -/
def INTRA_FRAME : Int := 0

/-- `av1_get_ref_mv_from_stack` from encodemv.c.  `rft` stands for the
external `av1_ref_frame_type`, which maps a reference-frame pair to the
stack key (modelled from the spec's "ordered entries per reference-frame
key"); `ref_frame` is the (first, second) reference pair, `ref_idx` the
requested slot, `ref_mv_idx` the stack index. -/
def av1_get_ref_mv_from_stack (rft : Int × Int → Int) (ref_idx : Nat)
    (ref_frame : Int × Int) (ref_mv_idx : Nat)
    (mbmi_ext : MB_MODE_INFO_EXT) : MV :=
  let ref_frame_type := rft ref_frame
  let curr_ref_mv_stack := mbmi_ext.ref_mv_stack ref_frame_type
  if INTRA_FRAME < ref_frame.2 then
    (if ref_idx ≠ 0 then (curr_ref_mv_stack ref_mv_idx).comp_mv
     else (curr_ref_mv_stack ref_mv_idx).this_mv)
  else
    if ref_mv_idx < mbmi_ext.ref_mv_count ref_frame_type then
      (curr_ref_mv_stack ref_mv_idx).this_mv
    else mbmi_ext.global_mvs ref_frame_type

/-- C9: for a compound reference pair, slot 0 returns the "this" vector
and slot 1 the "comp" vector of the stack entry at the given index; for a
single reference only slot 0 is valid and it returns that entry's "this"
vector when the index is below the populated count, and otherwise —
including an empty stack — returns that reference frame's global motion
vector unchanged. -/
theorem av1_get_ref_mv_from_stack_spec (rft : Int × Int → Int)
    (ref_frame : Int × Int) (ref_mv_idx : Nat)
    (mbmi_ext : MB_MODE_INFO_EXT) :
    (INTRA_FRAME < ref_frame.2 →
       av1_get_ref_mv_from_stack rft 0 ref_frame ref_mv_idx mbmi_ext
         = (mbmi_ext.ref_mv_stack (rft ref_frame) ref_mv_idx).this_mv
       ∧ av1_get_ref_mv_from_stack rft 1 ref_frame ref_mv_idx mbmi_ext
         = (mbmi_ext.ref_mv_stack (rft ref_frame) ref_mv_idx).comp_mv)
    ∧ (ref_frame.2 ≤ INTRA_FRAME →
       (ref_mv_idx < mbmi_ext.ref_mv_count (rft ref_frame) →
          av1_get_ref_mv_from_stack rft 0 ref_frame ref_mv_idx mbmi_ext
            = (mbmi_ext.ref_mv_stack (rft ref_frame) ref_mv_idx).this_mv)
       ∧ (mbmi_ext.ref_mv_count (rft ref_frame) ≤ ref_mv_idx →
          av1_get_ref_mv_from_stack rft 0 ref_frame ref_mv_idx mbmi_ext
            = mbmi_ext.global_mvs (rft ref_frame))) := by
  constructor
  · intro hcomp
    constructor
    · simp [av1_get_ref_mv_from_stack, if_pos hcomp]
    · simp [av1_get_ref_mv_from_stack, if_pos hcomp]
  · intro hsingle
    have hnot : ¬(INTRA_FRAME < ref_frame.2) := by omega
    constructor
    · intro hlt
      simp [av1_get_ref_mv_from_stack, hnot, hlt]
    · intro hge
      have : ¬(ref_mv_idx < mbmi_ext.ref_mv_count (rft ref_frame)) := by omega
      simp [av1_get_ref_mv_from_stack, hnot, this]

/-- A concrete candidate-stack context used to evaluate the resolver: one
reference-frame key (0) with an empty stack, another (1) with two
populated entries. -/
def sampleExt : MB_MODE_INFO_EXT where
  ref_mv_stack k i :=
    { this_mv := ⟨k * 100 + (i : Int), k * 100 + (i : Int) + 1⟩
      comp_mv := ⟨k * 100 + (i : Int) + 2, k * 100 + (i : Int) + 3⟩ }
  ref_mv_count k := if k = 1 then 2 else 0
  global_mvs k := ⟨k * 1000, k * 1000 + 7⟩

/-- Witness for C9: a compound pair `(1, 2)` at index 0 (both slots), and
a single reference `(1, 0)` — index 1 is populated (`count = 2` under key
1 with `rft = fun p => p.1`), while index 5 falls back to the global
vector; also the empty-stack fallback under key `(0, -1)`. -/
theorem av1_get_ref_mv_from_stack_spec_witness :
    (INTRA_FRAME < (2 : Int)
      ∧ av1_get_ref_mv_from_stack (fun p => p.1) 0 (1, 2) 0 sampleExt
        = (sampleExt.ref_mv_stack 1 0).this_mv
      ∧ av1_get_ref_mv_from_stack (fun p => p.1) 1 (1, 2) 0 sampleExt
        = (sampleExt.ref_mv_stack 1 0).comp_mv)
    ∧ (av1_get_ref_mv_from_stack (fun p => p.1) 0 (1, 0) 1 sampleExt
        = (sampleExt.ref_mv_stack 1 1).this_mv)
    ∧ (av1_get_ref_mv_from_stack (fun p => p.1) 0 (1, 0) 5 sampleExt
        = sampleExt.global_mvs 1)
    ∧ (av1_get_ref_mv_from_stack (fun p => p.1) 0 (0, -1) 0 sampleExt
        = sampleExt.global_mvs 0) :=
  ⟨⟨by decide,
    ((av1_get_ref_mv_from_stack_spec (fun p => p.1) (1, 2) 0 sampleExt).1
      (by decide)).1,
    ((av1_get_ref_mv_from_stack_spec (fun p => p.1) (1, 2) 0 sampleExt).1
      (by decide)).2⟩,
   ((av1_get_ref_mv_from_stack_spec (fun p => p.1) (1, 0) 1 sampleExt).2
      (by decide)).1 (by decide),
   ((av1_get_ref_mv_from_stack_spec (fun p => p.1) (1, 0) 5 sampleExt).2
      (by decide)).2 (by decide),
   ((av1_get_ref_mv_from_stack_spec (fun p => p.1) (0, -1) 0 sampleExt).2
      (by decide)).2 (by decide)⟩
